import Mathlib

/-!
Shallow embedding of `src/cifar.py`, a PyTorch CIFAR-10/100 training script.

The script targets Python 2: it opens with a `__future__` print-function
declaration, uses the PyTorch-0.3 era idioms (`Variable`, `volatile=True`,
`loss.data[0]`), passes the keyword argument `async=True` (a syntax error from
Python 3.7 on), and guards `imb_factor = 1. / args.imbalance` with an explicit
float literal against integer division.  Accordingly `/` between two Python
ints is floor division, modelled by `Nat.div`.  Float arithmetic is modelled
exactly: by `ℚ` where only field operations occur, and by `ℝ` where the float
power `**` with a float exponent occurs (`Real.rpow`).  A Python runtime error
(`ZeroDivisionError`) is modelled by `Option`.
-/

namespace Cifar

/-- Modelled from the spec: `utils.AverageMeter` (imported by `cifar.py`, not
part of `src/`) — a running weighted-mean accumulator; `update v n` folds the
observation `v` with weight `n` into the running sum and count. -/
structure AverageMeter where
  val : ℚ
  sum : ℚ
  count : ℚ
  avg : ℚ
  deriving DecidableEq

def AverageMeter.empty : AverageMeter := ⟨0, 0, 0, 0⟩

def AverageMeter.update (m : AverageMeter) (v n : ℚ) : AverageMeter :=
  ⟨v, m.sum + v * n, m.count + n, (m.sum + v * n) / (m.count + n)⟩

/-- The learning-rate state touched by `adjust_learning_rate`: the module-level
`state['lr']` and the learning rate of each optimizer `param_group`
(lines 383-388 of `cifar.py`). -/
structure LrState where
  lr : ℚ
  groups : List ℚ
  deriving DecidableEq

/-- Lines 383-388: `adjust_learning_rate(optimizer, epoch)` — if `epoch` is in
`args.schedule`, multiply `state['lr']` by `args.gamma` and write the new rate
into every `param_group`; otherwise leave everything unchanged. -/
def adjust_learning_rate (schedule : List ℕ) (gamma : ℚ) (st : LrState) (epoch : ℕ) :
    LrState :=
  if epoch ∈ schedule then
    { lr := st.lr * gamma, groups := st.groups.map fun _ => st.lr * gamma }
  else st

/-- The learning-rate state after the `adjust_learning_rate` calls made at the
start of epochs `0, 1, ..., n-1` (line 258 inside the epoch loop). -/
def lr_after (schedule : List ℕ) (gamma : ℚ) (st : LrState) (n : ℕ) : LrState :=
  (List.range n).foldl (adjust_learning_rate schedule gamma) st

/-- Lines 273-274: `is_best = test_acc > best_acc` and
`best_acc = max(test_acc, best_acc)`. -/
def checkpoint_decision (best_acc test_acc : ℚ) : Bool × ℚ :=
  (decide (test_acc > best_acc), max test_acc best_acc)

/-- The per-epoch `is_best` flags and the final best accuracy produced by
iterating lines 273-274 of the epoch loop over a run's test accuracies. -/
def best_tracking (best_acc : ℚ) : List ℚ → List Bool × ℚ
  | [] => ([], best_acc)
  | a :: rest =>
    let d := checkpoint_decision best_acc a
    let r := best_tracking d.2 rest
    (d.1 :: r.1, r.2)

/-- The successive values taken by `best_acc` (line 274) over a run's
test accuracies. -/
def best_trace (best_acc : ℚ) : List ℚ → List ℚ
  | [] => []
  | a :: rest => max a best_acc :: best_trace (max a best_acc) rest

/-- The checkpoint dictionary written by lines 275-281. -/
structure CheckpointRecord (M O : Type) where
  epoch : ℕ
  state_dict : M
  acc : ℚ
  best_acc : ℚ
  optimizer : O

/-- Lines 275-281: the record passed to `save_checkpoint` at the end of epoch
`epoch` stores `'epoch': epoch + 1` together with the model state dict, the
epoch's test accuracy, the updated best accuracy, and the optimizer state. -/
def saved_record (M O : Type) (epoch : ℕ) (sd : M) (test_acc best_acc : ℚ) (opt : O) :
    CheckpointRecord M O :=
  ⟨epoch + 1, sd, test_acc, best_acc, opt⟩

/-- What the resume branch (lines 221-225) restores into the run. -/
structure ResumedState (M O : Type) where
  best_acc : ℚ
  start_epoch : ℕ
  model_state : M
  optim_state : O

/-- Lines 221-225: `best_acc = checkpoint['best_acc']`,
`start_epoch = checkpoint['epoch']`, `model.load_state_dict(...)`,
`optimizer.load_state_dict(...)`. -/
def resume (M O : Type) (ck : CheckpointRecord M O) : ResumedState M O :=
  ⟨ck.best_acc, ck.epoch, ck.state_dict, ck.optimizer⟩

/-- Line 238: `img_max = 50000/num_classes` — two Python ints, floor division. -/
def img_max (num_classes : ℕ) : ℕ := 50000 / num_classes

/-- Lines 237-240: `num_sample[i] = img_max * (1./imbalance) ** (i/(num_classes-1))`.
The exponent `i/(num_classes - 1)` divides two Python ints, hence is floor
division (`Nat.div`); the base `1./imbalance` is an exact float quotient,
modelled in `ℚ`. -/
def num_sample (num_classes imbalance : ℕ) (i : ℕ) : ℚ :=
  (img_max num_classes : ℚ) * (1 / (imbalance : ℚ)) ^ (i / (num_classes - 1))

/-- Lines 239-240: the `num_sample` list over classes `0 .. num_classes-1`. -/
def num_sample_list (num_classes imbalance : ℕ) : List ℚ :=
  (List.range num_classes).map (num_sample num_classes imbalance)

/-- Python `max` over a list, as used at line 242 (`max(num_sample)`); the
empty case never occurs and gets the sentinel `0`. -/
def pymax : List ℚ → ℚ
  | [] => 0
  | [a] => a
  | a :: b :: rest => max a (pymax (b :: rest))

/-- Line 242: `ns = [float(n)/max(num_sample) for n in num_sample]`, written as
a function of the `num_sample` list it reads. -/
def ns_of (profile : List ℚ) : List ℚ :=
  profile.map fun n => n / pymax profile

/-- Line 243: `ns = [n**args.RS for n in ns]` — float `**` with float exponent,
modelled by real exponentiation. -/
noncomputable def s_of (profile : List ℚ) (RS : ℝ) : List ℝ :=
  (ns_of profile).map fun n : ℚ => (n : ℝ) ^ RS

/-- Line 242 instantiated with the generated profile of lines 237-240. -/
def ns_code (num_classes imbalance : ℕ) : List ℚ :=
  ns_of (num_sample_list num_classes imbalance)

/-- Line 243 instantiated with the generated profile of lines 237-240. -/
noncomputable def s_code (num_classes imbalance : ℕ) (RS : ℝ) : List ℝ :=
  s_of (num_sample_list num_classes imbalance) RS

/-- Lines 244-245: `new_W = W / ns` — row `i` of the `(C, D)` weight matrix is
divided elementwise by the scale `s i` (the `(C, 1)` column broadcasts along
the feature dimension). -/
noncomputable def rescaleW (W : List (List ℝ)) (s : List ℝ) : List (List ℝ) :=
  (W.zip s).map fun p => p.1.map fun x => x / p.2

/-- Lines 237-245 as one function of the classifier weights, the class
frequency profile and the rescaling strength. -/
noncomputable def rescale (W : List (List ℝ)) (profile : List ℚ) (RS : ℝ) :
    List (List ℝ) :=
  rescaleW W (s_of profile RS)

/-- The model state dictionary, split into the `module.fc.weight` entry and
everything else. -/
structure ModelDict (σ : Type) where
  fcWeight : List (List ℝ)
  rest : σ

/-- Lines 234-248: read `W = current_state['module.fc.weight']`, rescale it,
and write back exactly that one entry of the state dict. -/
noncomputable def apply_RS (σ : Type) (st : ModelDict σ) (profile : List ℚ) (RS : ℝ) :
    ModelDict σ :=
  { st with fcWeight := rescale st.fcWeight profile RS }

/-- Modelled from the spec: the spec's per-class count formula
`count(i) = max_count * r^(-i/(C-1))` with real division in the exponent and
`max_count = 50000 / C`, stated over `ℝ`. -/
noncomputable def spec_count (num_classes imbalance : ℕ) (i : ℕ) : ℝ :=
  (50000 / (num_classes : ℝ)) *
    (imbalance : ℝ) ^ (-((i : ℝ) / ((num_classes : ℝ) - 1)))

/-- The externally visible actions of `main` that matter for evaluate-only
mode: the test-result prints of lines 232 and 252 and `save_checkpoint` calls
of line 275. -/
inductive RunEvent
  | printTest (loss acc : ℚ)
  | saveCkpt (isBest : Bool)
  deriving DecidableEq

def RunEvent.isPrintTest : RunEvent → Bool
  | printTest _ _ => true
  | saveCkpt _ => false

def RunEvent.isSaveCkpt : RunEvent → Bool
  | printTest _ _ => false
  | saveCkpt _ => true

/-- Lines 228-254: the evaluate-only branch of `main` — run `test`, print the
result, rescale the classifier weights, run `test` again, print, and return;
`save_checkpoint` is never reached on this path. -/
noncomputable def evaluate_branch (σ : Type) (run_test : ModelDict σ → ℚ × ℚ)
    (profile : List ℚ) (RS : ℝ) (st : ModelDict σ) : List RunEvent :=
  let r1 := run_test st
  let st2 := apply_RS σ st profile RS
  let r2 := run_test st2
  [RunEvent.printTest r1.1 r1.2, RunEvent.printTest r2.1 r2.2]

/-- A network together with its train/eval mode flag (`model.train()` /
`model.eval()`). -/
structure NetState (P : Type) where
  params : P
  training : Bool

/-- What the forward pass, the criterion and the `accuracy` helper produce for
one batch (lines 312-319 and 362-369): the batch loss, top-1 and top-5
precision, and the batch size `inputs.size(0)`. -/
structure BatchEval where
  loss : ℚ
  prec1 : ℚ
  prec5 : ℚ
  size : ℚ
  deriving DecidableEq

/-- The three meters `losses`, `top1`, `top5`. -/
structure Meters where
  losses : AverageMeter
  top1 : AverageMeter
  top5 : AverageMeter
  deriving DecidableEq

def Meters.empty : Meters := ⟨.empty, .empty, .empty⟩

/-- Lines 317-319 (and identically 367-369): record one batch into the
meters, each weighted by the batch size. -/
def Meters.record (ms : Meters) (r : BatchEval) : Meters :=
  ⟨ms.losses.update r.loss r.size, ms.top1.update r.prec1 r.size,
    ms.top5.update r.prec5 r.size⟩

/-- Lines 339-374: `test(testloader, model, criterion, epoch, use_cuda)` — set
the model to eval mode, fold the batches through the meters using the forward
pass `eval_batch` on the (unchanged) parameters, and return
`(losses.avg, top1.avg)` together with the final model and optimizer state. -/
def test_epoch (P O B : Type) (model : NetState P) (optim_state : O)
    (eval_batch : P → B → BatchEval) (batches : List B) :
    (ℚ × ℚ) × NetState P × O :=
  let m : NetState P := { model with training := false }
  let ms := batches.foldl (fun acc b => acc.record (eval_batch m.params b)) Meters.empty
  ((ms.losses.avg, ms.top1.avg), m, optim_state)

/-- Python `%` on ints: `a % b` raises `ZeroDivisionError` when `b = 0`. -/
def pymod (a b : ℕ) : Option ℕ :=
  if b = 0 then none else some (a % b)

/-- The state carried through the training loop: the parameters mutated by the
optimizer step and the meters. -/
structure TrainLoopState (P : Type) where
  params : P
  meters : Meters

/-- Lines 302-332: one iteration of the training loop — forward pass,
criterion and `accuracy` through `eval_batch`, meter updates, the SGD update
through `step_params`, then the progress-print guard
`if not (batch_idx+1)%denom:` (line 326), whose modulo raises
`ZeroDivisionError` when `denom = 0`. -/
def train_step (P B : Type) (eval_batch : P → B → BatchEval)
    (step_params : P → B → P) (denom : ℕ) (st : TrainLoopState P) (ib : ℕ × B) :
    Option (TrainLoopState P) := do
  let r := eval_batch st.params ib.2
  let ms := st.meters.record r
  let p := step_params st.params ib.2
  let _ ← pymod (ib.1 + 1) denom
  pure ⟨p, ms⟩

/-- Lines 287-337: `train(trainloader, model, criterion, optimizer, epoch,
use_cuda)` — `max_iter = len(trainloader)`, `denom = max_iter // 13`, then the
enumerated batch loop; returns `(losses.avg, top1.avg)`, or `none` when an
iteration raises. -/
def train_epoch (P B : Type) (eval_batch : P → B → BatchEval)
    (step_params : P → B → P) (params : P) (batches : List B) : Option (ℚ × ℚ) := do
  let max_iter := batches.length
  let denom := max_iter / 13
  let fin ← batches.enum.foldlM (train_step P B eval_batch step_params denom)
    ⟨params, Meters.empty⟩
  pure (fin.meters.losses.avg, fin.meters.top1.avg)

theorem foldl_adjust_eq_self (schedule : List ℕ) (gamma : ℚ) (st : LrState)
    (l : List ℕ) (h : ∀ e ∈ l, e ∉ schedule) :
    l.foldl (adjust_learning_rate schedule gamma) st = st := by
  induction l generalizing st with
  | nil => rfl
  | cons a t ih =>
    rw [List.foldl_cons]
    rw [show adjust_learning_rate schedule gamma st a = st by
      unfold adjust_learning_rate
      rw [if_neg (h a (List.mem_cons_self a t))]]
    exact ih st fun e he => h e (List.mem_cons_of_mem a he)

theorem lr_after_81 :
    lr_after [80, 150] (1/10) ⟨1/10, [1/10]⟩ 81 = ⟨1/100, [1/100]⟩ := by
  have h80 : (List.range 80).foldl (adjust_learning_rate [80, 150] (1/10))
      ⟨1/10, [1/10]⟩ = ⟨1/10, [1/10]⟩ := by
    refine foldl_adjust_eq_self _ _ _ _ fun e he => ?_
    simp only [List.mem_range] at he
    intro hmem
    simp only [List.mem_cons, List.not_mem_nil, or_false] at hmem
    omega
  unfold lr_after
  rw [show (81 : ℕ) = 80 + 1 by norm_num, List.range_succ, List.foldl_append, h80]
  simp only [List.foldl_cons, List.foldl_nil, adjust_learning_rate]
  norm_num

theorem lr_after_151 :
    lr_after [80, 150] (1/10) ⟨1/10, [1/10]⟩ 151 = ⟨1/1000, [1/1000]⟩ := by
  have hmid : ((List.range 69).map (fun k => 81 + k)).foldl
      (adjust_learning_rate [80, 150] (1/10)) ⟨1/100, [1/100]⟩ = ⟨1/100, [1/100]⟩ := by
    refine foldl_adjust_eq_self _ _ _ _ fun e he => ?_
    simp only [List.mem_map, List.mem_range] at he
    obtain ⟨k, hk, rfl⟩ := he
    intro hmem
    simp only [List.mem_cons, List.not_mem_nil, or_false] at hmem
    omega
  have h81 := lr_after_81
  unfold lr_after at h81
  unfold lr_after
  rw [show (151 : ℕ) = 150 + 1 by norm_num, List.range_succ, List.foldl_append]
  rw [show (150 : ℕ) = 81 + 69 by norm_num, List.range_add, List.foldl_append, h81, hmid]
  simp only [List.foldl_cons, List.foldl_nil, adjust_learning_rate]
  norm_num

/-- C3: with decay schedule `[80, 150]`, `gamma = 0.1` and initial learning
rate `0.1`, the per-epoch adjustment leaves the state unchanged at every epoch
not in the schedule; iterating it over epochs `0..80` yields rate `0.01` and
over epochs `0..150` yields rate `0.001` (propagated into every parameter
group); and whenever a scheduled epoch fires, the new rate `lr * gamma` is
written to every optimizer parameter group. -/
theorem C3_lr_decay (st : LrState) (e : ℕ) (he : e ∉ ([80, 150] : List ℕ)) :
    adjust_learning_rate [80, 150] (1/10) st e = st ∧
    (lr_after [80, 150] (1/10) ⟨1/10, [1/10]⟩ 81).lr = 1/100 ∧
    (lr_after [80, 150] (1/10) ⟨1/10, [1/10]⟩ 151).lr = 1/1000 ∧
    lr_after [80, 150] (1/10) ⟨1/10, [1/10]⟩ 151 = ⟨1/1000, [1/1000]⟩ ∧
    ∀ st' e', e' ∈ ([80, 150] : List ℕ) →
      (adjust_learning_rate [80, 150] (1/10) st' e').lr = st'.lr * (1/10) ∧
      ∀ g ∈ (adjust_learning_rate [80, 150] (1/10) st' e').groups,
        g = st'.lr * (1/10) := by
  refine ⟨?_, ?_, ?_, lr_after_151, ?_⟩
  · unfold adjust_learning_rate
    rw [if_neg he]
  · rw [lr_after_81]
  · rw [lr_after_151]
  · intro st' e' he'
    unfold adjust_learning_rate
    rw [if_pos he']
    refine ⟨rfl, ?_⟩
    intro g hg
    simp only [List.mem_map] at hg
    obtain ⟨x, _, rfl⟩ := hg
    rfl

theorem C3_lr_decay_witness :
    (79 ∉ ([80, 150] : List ℕ)) ∧
    (adjust_learning_rate [80, 150] (1/10) ⟨1/10, [1/10]⟩ 79 = ⟨1/10, [1/10]⟩ ∧
    (lr_after [80, 150] (1/10) ⟨1/10, [1/10]⟩ 81).lr = 1/100 ∧
    (lr_after [80, 150] (1/10) ⟨1/10, [1/10]⟩ 151).lr = 1/1000 ∧
    lr_after [80, 150] (1/10) ⟨1/10, [1/10]⟩ 151 = ⟨1/1000, [1/1000]⟩ ∧
    ∀ st' e', e' ∈ ([80, 150] : List ℕ) →
      (adjust_learning_rate [80, 150] (1/10) st' e').lr = st'.lr * (1/10) ∧
      ∀ g ∈ (adjust_learning_rate [80, 150] (1/10) st' e').groups,
        g = st'.lr * (1/10)) :=
  ⟨by decide, C3_lr_decay ⟨1/10, [1/10]⟩ 79 (by decide)⟩

/-- C1: the checkpoint-worthiness flag is `is_best = test_acc > best_acc`
(strict, so a tie is not an improvement), the best accuracy is then updated to
`max(test_acc, best_acc)`, and over the test accuracies
`[40, 55, 50, 60]` starting from best accuracy `0` the flags come out
`[true, true, false, true]` with final best accuracy `60`. -/
theorem C1_checkpoint_best :
    (∀ b t : ℚ, (checkpoint_decision b t).1 = decide (b < t)) ∧
    (∀ b : ℚ, (checkpoint_decision b b).1 = false) ∧
    (∀ b t : ℚ, (checkpoint_decision b t).2 = max t b) ∧
    best_tracking 0 [40, 55, 50, 60] = ([true, true, false, true], 60) := by
  refine ⟨fun b t => rfl, ?_, fun b t => rfl, ?_⟩
  · intro b
    simp [checkpoint_decision]
  · simp only [best_tracking, checkpoint_decision]
    norm_num [max_def]

theorem best_trace_lower_bound (b : ℚ) :
    ∀ (l : List ℚ) (x : ℚ), x ∈ best_trace b l → b ≤ x
  | a :: rest, x, hx => by
    simp only [best_trace, List.mem_cons] at hx
    rcases hx with rfl | hx
    · exact le_max_right a b
    · exact le_trans (le_max_right a b) (best_trace_lower_bound (max a b) rest x hx)

/-- C4: resuming restores the best accuracy, model state and optimizer state
from the loaded record and starts the epoch loop at the record's epoch field,
which the save path sets to the saving epoch's index plus one; for a
checkpoint saved at epoch `100` with best accuracy `72.3` the loop resumes at
epoch `101` with all fields restored, and every subsequently reported best
accuracy is at least `72.3`. -/
theorem C4_resume_contract (M O : Type) (sd : M) (opt : O) (a : ℚ)
    (accs : List ℚ) (x : ℚ) (hx : x ∈ best_trace (723/10) accs) :
    (∀ ck : CheckpointRecord M O,
      resume M O ck = ⟨ck.best_acc, ck.epoch, ck.state_dict, ck.optimizer⟩) ∧
    (∀ (e : ℕ) (t b : ℚ), (saved_record M O e sd t b opt).epoch = e + 1) ∧
    (resume M O (saved_record M O 100 sd a (723/10) opt)).start_epoch = 100 + 1 ∧
    (resume M O (saved_record M O 100 sd a (723/10) opt)).best_acc = 723/10 ∧
    (resume M O (saved_record M O 100 sd a (723/10) opt)).model_state = sd ∧
    (resume M O (saved_record M O 100 sd a (723/10) opt)).optim_state = opt ∧
    723/10 ≤ x :=
  ⟨fun _ => rfl, fun _ _ _ => rfl, rfl, rfl, rfl, rfl,
    best_trace_lower_bound (723/10) accs x hx⟩

theorem C4_resume_contract_witness :
    (max 70 (723/10) ∈ best_trace (723/10) [70]) ∧
    ((∀ ck : CheckpointRecord ℕ ℕ,
      resume ℕ ℕ ck = ⟨ck.best_acc, ck.epoch, ck.state_dict, ck.optimizer⟩) ∧
    (∀ (e : ℕ) (t b : ℚ), (saved_record ℕ ℕ e 0 t b 0).epoch = e + 1) ∧
    (resume ℕ ℕ (saved_record ℕ ℕ 100 0 50 (723/10) 0)).start_epoch = 100 + 1 ∧
    (resume ℕ ℕ (saved_record ℕ ℕ 100 0 50 (723/10) 0)).best_acc = 723/10 ∧
    (resume ℕ ℕ (saved_record ℕ ℕ 100 0 50 (723/10) 0)).model_state = 0 ∧
    (resume ℕ ℕ (saved_record ℕ ℕ 100 0 50 (723/10) 0)).optim_state = 0 ∧
    (723/10 : ℚ) ≤ max 70 (723/10)) :=
  ⟨by simp [best_trace], C4_resume_contract ℕ ℕ 0 0 50 [70] (max 70 (723/10))
    (by simp [best_trace])⟩

theorem pymax_le_of_forall_le (a : ℚ) :
    ∀ l : List ℚ, l ≠ [] → (∀ x ∈ l, x ≤ a) → pymax l ≤ a
  | [], h, _ => absurd rfl h
  | [b], _, h => by simpa [pymax] using h b (List.mem_singleton_self b)
  | b :: c :: rest, _, h => by
    have h1 : b ≤ a := h b (List.mem_cons_self b (c :: rest))
    have h2 : pymax (c :: rest) ≤ a :=
      pymax_le_of_forall_le a (c :: rest) (by simp)
        fun x hx => h x (List.mem_cons_of_mem b hx)
    simpa [pymax, max_le_iff] using ⟨h1, h2⟩

theorem pymax_cons_of_le (a : ℚ) (l : List ℚ) (h : ∀ x ∈ l, x ≤ a) :
    pymax (a :: l) = a := by
  cases l with
  | nil => rfl
  | cons b rest =>
    have hle : pymax (b :: rest) ≤ a :=
      pymax_le_of_forall_le a (b :: rest) (by simp) h
    simp [pymax, max_eq_left hle]

theorem range_eq_cons (n : ℕ) (h : 1 ≤ n) :
    List.range n = 0 :: (List.range (n-1)).map Nat.succ := by
  obtain ⟨m, rfl⟩ : ∃ m, n = m + 1 := ⟨n - 1, by omega⟩
  simp [List.range_succ_eq_map]

theorem num_sample_zero_eq (C r : ℕ) : num_sample C r 0 = (img_max C : ℚ) := by
  unfold num_sample
  simp

theorem num_sample_le (C r : ℕ) (hr : 1 ≤ r) (i : ℕ) :
    num_sample C r i ≤ (img_max C : ℚ) := by
  unfold num_sample
  have hr0 : (0:ℚ) < r := by exact_mod_cast Nat.lt_of_lt_of_le Nat.zero_lt_one hr
  have h0 : (0:ℚ) ≤ 1 / r := by positivity
  have h1 : (1:ℚ) / r ≤ 1 := by
    rw [div_le_one hr0]
    exact_mod_cast hr
  calc (img_max C : ℚ) * (1/(r:ℚ)) ^ (i / (C-1))
      ≤ (img_max C : ℚ) * 1 :=
        mul_le_mul_of_nonneg_left (pow_le_one₀ h0 h1) (by positivity)
    _ = (img_max C : ℚ) := mul_one _

theorem img_max_pos (C : ℕ) (hC : 1 ≤ C) (hC' : C ≤ 50000) : 0 < img_max C :=
  Nat.div_pos hC' (by omega)

theorem num_sample_pos (C r : ℕ) (hC : 1 ≤ C) (hC' : C ≤ 50000) (hr : 1 ≤ r)
    (i : ℕ) : 0 < num_sample C r i := by
  unfold num_sample
  have h1 : 0 < img_max C := img_max_pos C hC hC'
  have h2 : (0:ℚ) < r := by exact_mod_cast (by omega : 0 < r)
  exact mul_pos (by exact_mod_cast h1) (pow_pos (div_pos one_pos h2) _)

theorem num_sample_list_eq_cons (C r : ℕ) (hC : 1 ≤ C) :
    num_sample_list C r
      = (img_max C : ℚ) :: (List.range (C-1)).map (fun j => num_sample C r (j+1)) := by
  unfold num_sample_list
  rw [range_eq_cons C hC]
  simp only [List.map_cons, List.map_map, num_sample_zero_eq]
  rfl

theorem pymax_num_sample_list (C r : ℕ) (hC : 1 ≤ C) (hr : 1 ≤ r) :
    pymax (num_sample_list C r) = (img_max C : ℚ) := by
  rw [num_sample_list_eq_cons C r hC]
  refine pymax_cons_of_le _ _ fun x hx => ?_
  simp only [List.mem_map, List.mem_range] at hx
  obtain ⟨j, _, rfl⟩ := hx
  exact num_sample_le C r hr (j+1)

theorem num_sample_last (C r : ℕ) (hC : 2 ≤ C) :
    num_sample C r (C-1) = (img_max C : ℚ) * (1 / r) := by
  unfold num_sample
  rw [Nat.div_self (by omega : 0 < C - 1), pow_one]

theorem ns_code_length (C r : ℕ) : (ns_code C r).length = C := by
  unfold ns_code ns_of num_sample_list
  simp

theorem s_code_eq (C r : ℕ) (p : ℝ) :
    s_code C r p = (ns_code C r).map fun n : ℚ => (n : ℝ) ^ p := by
  unfold s_code s_of ns_code
  rfl

theorem s_code_length (C r : ℕ) (p : ℝ) : (s_code C r p).length = C := by
  rw [s_code_eq]
  simp [ns_code_length]

theorem ns_code_getD (C r i : ℕ) (h : i < C) :
    (ns_code C r).getD i 0 = num_sample C r i / pymax (num_sample_list C r) := by
  unfold ns_code ns_of
  have hlen : i < ((num_sample_list C r).map
      fun n => n / pymax (num_sample_list C r)).length := by
    simpa [num_sample_list] using h
  rw [List.getD_eq_getElem _ _ hlen]
  simp only [List.getElem_map]
  congr 1
  unfold num_sample_list
  simp only [List.getElem_map, List.getElem_range]

theorem s_code_getD (C r i : ℕ) (p : ℝ) (h : i < C) :
    (s_code C r p).getD i 0 = (((ns_code C r).getD i 0 : ℚ) : ℝ) ^ p := by
  rw [s_code_eq]
  have hlen : i < ((ns_code C r).map fun n : ℚ => (n : ℝ) ^ p).length := by
    simpa [ns_code_length] using h
  rw [List.getD_eq_getElem _ _ hlen]
  simp only [List.getElem_map]
  congr 2
  rw [List.getD_eq_getElem _ _ (by simpa [ns_code_length] using h)]

theorem ns_code_mem (C r : ℕ) (x : ℚ) (hx : x ∈ ns_code C r) :
    ∃ j, j < C ∧ x = num_sample C r j / pymax (num_sample_list C r) := by
  unfold ns_code ns_of at hx
  simp only [List.mem_map] at hx
  obtain ⟨n, hn, rfl⟩ := hx
  unfold num_sample_list at hn
  simp only [List.mem_map, List.mem_range] at hn
  obtain ⟨j, hj, rfl⟩ := hn
  exact ⟨j, hj, rfl⟩

/-- C2 (evaluation at the failing input): under the script's Python 2
semantics the exponent `i/(num_classes - 1)` of line 239 is integer floor
division, so for `C = 10`, `r = 100` the code's `num_sample` equals
`max_count = 5000` at every interior class, in particular at `i = 1`, while
the spec's exponential-interpolation formula gives a strictly smaller value
there; the two agree at the endpoints `i = 0` and `i = 9`. -/
theorem C2_floor_div_exponent :
    num_sample 10 100 1 = 5000 ∧
    num_sample 10 100 0 = 5000 ∧
    num_sample 10 100 9 = 50 ∧
    spec_count 10 100 1 < 5000 ∧
    ((num_sample 10 100 1 : ℚ) : ℝ) ≠ spec_count 10 100 1 := by
  have e1 : num_sample 10 100 1 = 5000 := by
    unfold num_sample img_max
    norm_num
  have e0 : num_sample 10 100 0 = 5000 := by
    unfold num_sample img_max
    norm_num
  have e9 : num_sample 10 100 9 = 50 := by
    unfold num_sample img_max
    norm_num
  have hlt : spec_count 10 100 1 < 5000 := by
    unfold spec_count
    have h1 : (100:ℝ) ^ (-((1:ℝ)/9)) < 1 :=
      Real.rpow_lt_one_of_one_lt_of_neg (by norm_num) (by norm_num)
    have h0 : (0:ℝ) < (100:ℝ) ^ (-((1:ℝ)/9)) :=
      Real.rpow_pos_of_pos (by norm_num) _
    push_cast
    norm_num
    nlinarith [h1, h0]
  refine ⟨e1, e0, e9, hlt, ?_⟩
  have hcast : ((num_sample 10 100 1 : ℚ) : ℝ) = 5000 := by
    rw [e1]
    norm_num
  rw [hcast]
  exact ne_of_gt hlt

/-- C5 counterexample: at the code's default imbalance factor `r = 1`
(`--imbalance 1`) with `C = 10` classes and strength `p = 1`, the generated
profile is uniform and the least-frequent class's scale factor equals `1`
exactly — it is not strictly less than `1`, so dividing that weight row by it
changes nothing. -/
theorem C5_r1_counterexample :
    (ns_code 10 1).getD (10-1) 0 = 1 ∧
    (s_code 10 1 1).getD (10-1) 0 = 1 ∧
    ¬ (s_code 10 1 1).getD (10-1) 0 < 1 := by
  have hns : (ns_code 10 1).getD (10-1) 0 = 1 := by
    rw [ns_code_getD 10 1 (10-1) (by omega),
      pymax_num_sample_list 10 1 (by norm_num) (by norm_num)]
    unfold num_sample img_max
    norm_num
  have hs : (s_code 10 1 1).getD (10-1) 0 = 1 := by
    rw [s_code_getD 10 1 (10-1) 1 (by omega), hns]
    norm_num [Real.rpow_one]
  exact ⟨hns, hs, by rw [hs]; exact lt_irrefl 1⟩

/-- C5 (amended): for every class-count profile the rescaler generates
(`2 ≤ C ≤ 50000`, integer imbalance factor `r ≥ 1`) and every strength `p`:
the normalization factors `n(i) = count(i)/max(count)` lie in `(0, 1]` with
`n(0) = 1`, the scale `s(0) = n(0)^p = 1` so dividing row `0` of the
classifier weights leaves it unchanged, and the least-frequent class `C-1`
gets a strictly positive scale; when moreover the profile is actually
imbalanced (`r > 1`) and the strength is positive (`p > 0`), that scale is
strictly less than `1` (at `r = 1` it equals `1`, as the counterexample
shows). -/
theorem C5_norm_factors (C r : ℕ) (p : ℝ) (W : List (List ℝ))
    (hC : 2 ≤ C) (hC' : C ≤ 50000) (hr : 1 ≤ r) (hW : W.length = C) :
    (∀ x ∈ ns_code C r, 0 < x ∧ x ≤ 1) ∧
    (ns_code C r).getD 0 0 = 1 ∧
    (s_code C r p).getD 0 0 = 1 ∧
    (rescaleW W (s_code C r p)).getD 0 [] = W.getD 0 [] ∧
    0 < (s_code C r p).getD (C-1) 0 ∧
    (2 ≤ r → 0 < p → (s_code C r p).getD (C-1) 0 < 1) := by
  have hC1 : 1 ≤ C := by omega
  have hr1 : 1 ≤ r := hr
  have hM : 0 < (img_max C : ℚ) := by
    exact_mod_cast img_max_pos C hC1 hC'
  have hrQ : (0:ℚ) < r := by exact_mod_cast (by omega : 0 < r)
  have hrR : (0:ℝ) < r := by exact_mod_cast (by omega : 0 < r)
  have hmem : ∀ x ∈ ns_code C r, 0 < x ∧ x ≤ 1 := by
    intro x hx
    obtain ⟨j, hj, rfl⟩ := ns_code_mem C r x hx
    rw [pymax_num_sample_list C r hC1 hr1]
    constructor
    · exact div_pos (num_sample_pos C r hC1 hC' hr1 j) hM
    · rw [div_le_one hM]
      exact num_sample_le C r hr1 j
  have hns0 : (ns_code C r).getD 0 0 = 1 := by
    rw [ns_code_getD C r 0 (by omega), pymax_num_sample_list C r hC1 hr1,
      num_sample_zero_eq]
    exact div_self hM.ne'
  have hs0 : (s_code C r p).getD 0 0 = 1 := by
    rw [s_code_getD C r 0 p (by omega), hns0]
    simp [Real.one_rpow]
  have hnslast : (ns_code C r).getD (C-1) 0 = 1 / r := by
    rw [ns_code_getD C r (C-1) (by omega), pymax_num_sample_list C r hC1 hr1,
      num_sample_last C r hC]
    rw [mul_comm, mul_div_assoc, div_self hM.ne', mul_one]
  have hslast_pos : 0 < (s_code C r p).getD (C-1) 0 := by
    rw [s_code_getD C r (C-1) p (by omega), hnslast]
    refine Real.rpow_pos_of_pos ?_ p
    push_cast
    positivity
  have hslast_lt : 2 ≤ r → 0 < p → (s_code C r p).getD (C-1) 0 < 1 := by
    intro hr2 hp
    rw [s_code_getD C r (C-1) p (by omega), hnslast]
    push_cast
    refine Real.rpow_lt_one (by positivity) ?_ hp
    rw [div_lt_one hrR]
    exact_mod_cast (by omega : 1 < r)
  refine ⟨hmem, hns0, hs0, ?_, hslast_pos, hslast_lt⟩
  have hWne : W ≠ [] := by
    intro h
    rw [h] at hW
    simp at hW
    omega
  obtain ⟨w, W', rfl⟩ := List.exists_cons_of_ne_nil hWne
  have hsne : s_code C r p ≠ [] := by
    intro h
    have := s_code_length C r p
    rw [h] at this
    simp at this
    omega
  obtain ⟨s0, s', hs⟩ := List.exists_cons_of_ne_nil hsne
  have hs0' : s0 = 1 := by
    rw [hs] at hs0
    simpa using hs0
  rw [hs, hs0']
  unfold rescaleW
  simp only [List.zip_cons_cons, List.map_cons, List.getD_cons_zero]
  simp

theorem C5_norm_factors_witness :
    ((2:ℕ) ≤ 10 ∧ (10:ℕ) ≤ 50000 ∧ (1:ℕ) ≤ 100 ∧
      (List.replicate 10 [(1:ℝ)]).length = 10) ∧
    ((∀ x ∈ ns_code 10 100, 0 < x ∧ x ≤ 1) ∧
    (ns_code 10 100).getD 0 0 = 1 ∧
    (s_code 10 100 1).getD 0 0 = 1 ∧
    (rescaleW (List.replicate 10 [(1:ℝ)]) (s_code 10 100 1)).getD 0 []
      = (List.replicate 10 [(1:ℝ)]).getD 0 [] ∧
    0 < (s_code 10 100 1).getD (10-1) 0 ∧
    ((2:ℕ) ≤ 100 → (0:ℝ) < 1 → (s_code 10 100 1).getD (10-1) 0 < 1)) :=
  ⟨⟨by norm_num, by norm_num, by norm_num, by simp⟩,
    C5_norm_factors 10 100 1 (List.replicate 10 [(1:ℝ)])
      (by norm_num) (by norm_num) (by norm_num) (by simp)⟩

/-- C7 counterexample: the normalization of lines 242-243 applied to a profile
that contains a zero count produces the scale factor `0` for that class — the
zero is not excluded, special-cased or clamped to a positive floor (dividing
the weight row by it is exactly the division by zero the claim says is
prevented). -/
theorem C7_no_clamp_counterexample :
    ns_of [5000, 0] = [1, 0] ∧ s_of [5000, 0] 1 = [1, 0] ∧
    ¬ (0 : ℝ) < (s_of [5000, 0] 1).getD 1 1 := by
  have h1 : ns_of [5000, 0] = [1, 0] := by
    unfold ns_of
    norm_num [pymax, max_def]
  have h2 : s_of [5000, 0] 1 = [1, 0] := by
    unfold s_of
    rw [h1]
    norm_num [Real.rpow_one]
  refine ⟨h1, h2, ?_⟩
  rw [h2]
  norm_num [List.getD]

/-- C7 (amended): the code contains no zero-count exclusion and no clamping;
division by zero is impossible only because every count the code itself
generates (integer imbalance factor `r ≥ 1`, `1 ≤ C ≤ 50000`) is strictly
positive, making every normalization factor and every scale factor strictly
positive. -/
theorem C7_generated_profile_pos (C r : ℕ) (p : ℝ)
    (hC : 1 ≤ C) (hC' : C ≤ 50000) (hr : 1 ≤ r) :
    (∀ x ∈ num_sample_list C r, 0 < x) ∧
    (∀ x ∈ ns_code C r, 0 < x) ∧
    (∀ y ∈ s_code C r p, 0 < y) := by
  have hM : 0 < (img_max C : ℚ) := by
    exact_mod_cast img_max_pos C hC hC'
  have hprof : ∀ x ∈ num_sample_list C r, 0 < x := by
    intro x hx
    unfold num_sample_list at hx
    simp only [List.mem_map, List.mem_range] at hx
    obtain ⟨j, _, rfl⟩ := hx
    exact num_sample_pos C r hC hC' hr j
  have hns : ∀ x ∈ ns_code C r, 0 < x := by
    intro x hx
    obtain ⟨j, _, rfl⟩ := ns_code_mem C r x hx
    rw [pymax_num_sample_list C r hC hr]
    exact div_pos (num_sample_pos C r hC hC' hr j) hM
  refine ⟨hprof, hns, ?_⟩
  intro y hy
  rw [s_code_eq] at hy
  simp only [List.mem_map] at hy
  obtain ⟨x, hx, rfl⟩ := hy
  have hxpos : (0:ℝ) < ((x : ℚ) : ℝ) := by exact_mod_cast hns x hx
  exact Real.rpow_pos_of_pos hxpos p

theorem C7_generated_profile_pos_witness :
    ((1:ℕ) ≤ 100 ∧ (100:ℕ) ≤ 50000 ∧ (1:ℕ) ≤ 10) ∧
    ((∀ x ∈ num_sample_list 100 10, 0 < x) ∧
    (∀ x ∈ ns_code 100 10, 0 < x) ∧
    (∀ y ∈ s_code 100 10 (1/2), 0 < y)) :=
  ⟨⟨by norm_num, by norm_num, by norm_num⟩,
    C7_generated_profile_pos 100 10 (1/2) (by norm_num) (by norm_num) (by norm_num)⟩

theorem rescale_length (W : List (List ℝ)) (profile : List ℚ) (RS : ℝ)
    (hW : W.length = profile.length) : (rescale W profile RS).length = W.length := by
  unfold rescale rescaleW s_of ns_of
  simp [hW]

theorem rescale_row_length (W : List (List ℝ)) (profile : List ℚ) (RS : ℝ)
    (hW : W.length = profile.length) (i : ℕ) (hi : i < W.length) :
    ((rescale W profile RS).getD i []).length = (W.getD i []).length := by
  have hlen : (rescale W profile RS).length = W.length :=
    rescale_length W profile RS hW
  rw [List.getD_eq_getElem _ _ (by rw [hlen]; exact hi),
    List.getD_eq_getElem _ _ hi]
  unfold rescale rescaleW
  simp only [List.getElem_map, List.getElem_zip, List.length_map]

/-- C6: the rescaling of lines 237-248 is a pure function of the weights, the
profile and the strength: evaluating it twice on the same inputs gives the
same result, the output has the same shape as the input (same number of rows,
each row keeping its length), and applying it to the model state dictionary
rewrites only the `module.fc.weight` entry, leaving every other part of the
state untouched. -/
theorem C6_rescale_pure (σ : Type) (W : List (List ℝ)) (profile : List ℚ)
    (RS : ℝ) (st : ModelDict σ) (hW : W.length = profile.length) :
    rescale W profile RS = rescale W profile RS ∧
    (rescale W profile RS).length = W.length ∧
    (∀ i, i < W.length →
      ((rescale W profile RS).getD i []).length = (W.getD i []).length) ∧
    (apply_RS σ st profile RS).rest = st.rest ∧
    (apply_RS σ st profile RS).fcWeight = rescale st.fcWeight profile RS :=
  ⟨rfl, rescale_length W profile RS hW,
    fun i hi => rescale_row_length W profile RS hW i hi, rfl, rfl⟩

theorem C6_rescale_pure_witness :
    (([[1, 2], [3]] : List (List ℝ)).length = ([1, 2] : List ℚ).length) ∧
    (rescale [[1, 2], [3]] [1, 2] 1 = rescale [[1, 2], [3]] [1, 2] 1 ∧
    (rescale [[1, 2], [3]] [1, 2] 1).length
      = ([[1, 2], [3]] : List (List ℝ)).length ∧
    (∀ i, i < ([[1, 2], [3]] : List (List ℝ)).length →
      ((rescale [[1, 2], [3]] [1, 2] 1).getD i []).length
        = (([[1, 2], [3]] : List (List ℝ)).getD i []).length) ∧
    (apply_RS Unit ⟨[[5]], ()⟩ [1, 2] 1).rest
      = (⟨[[5]], ()⟩ : ModelDict Unit).rest ∧
    (apply_RS Unit ⟨[[5]], ()⟩ [1, 2] 1).fcWeight = rescale [[5]] [1, 2] 1) :=
  ⟨rfl, C6_rescale_pure Unit [[1, 2], [3]] [1, 2] 1 ⟨[[5]], ()⟩ rfl⟩

/-- C8: in evaluate-only mode the run prints the test loss/accuracy exactly
twice — once computed from the original weights, once from the rescaled
weights — and emits no checkpoint-save event at all. -/
theorem C8_evaluate_only (σ : Type) (run_test : ModelDict σ → ℚ × ℚ)
    (profile : List ℚ) (RS : ℝ) (st : ModelDict σ) :
    evaluate_branch σ run_test profile RS st =
      [RunEvent.printTest (run_test st).1 (run_test st).2,
       RunEvent.printTest (run_test (apply_RS σ st profile RS)).1
         (run_test (apply_RS σ st profile RS)).2] ∧
    ((evaluate_branch σ run_test profile RS st).filter RunEvent.isPrintTest).length
      = 2 ∧
    ∀ e ∈ evaluate_branch σ run_test profile RS st, e.isSaveCkpt = false := by
  refine ⟨rfl, ?_, ?_⟩
  · simp [evaluate_branch, RunEvent.isPrintTest]
  · intro e he
    simp only [evaluate_branch, List.mem_cons, List.not_mem_nil, or_false] at he
    rcases he with rfl | rfl <;> rfl

/-- C9: running the evaluator's epoch (the `test` function) leaves all model
parameters and the optimizer state unchanged: it sets the model to eval mode
and folds the batches through the meters using the forward pass on the
unchanged parameters, returning the aggregate loss and top-1 accuracy. -/
theorem C9_test_frame (P O B : Type) (model : NetState P) (opt : O)
    (eval_batch : P → B → BatchEval) (batches : List B) :
    (test_epoch P O B model opt eval_batch batches).2.1.params = model.params ∧
    (test_epoch P O B model opt eval_batch batches).2.2 = opt ∧
    (test_epoch P O B model opt eval_batch batches).2.1.training = false ∧
    (test_epoch P O B model opt eval_batch batches).1 =
      ((batches.foldl (fun acc b => acc.record (eval_batch model.params b))
          Meters.empty).losses.avg,
        (batches.foldl (fun acc b => acc.record (eval_batch model.params b))
          Meters.empty).top1.avg) :=
  ⟨rfl, rfl, rfl, rfl⟩

/-- C10: when the training loader yields at least one but fewer than 13
batches, the progress-print denominator `denom = max_iter // 13` is `0` and
the guard `(batch_idx+1) % denom` of the first iteration raises
`ZeroDivisionError`, so the training epoch never completes. -/
theorem C10_short_epoch_crash (P B : Type) (eval_batch : P → B → BatchEval)
    (step_params : P → B → P) (params : P) (batches : List B)
    (h1 : 1 ≤ batches.length) (h13 : batches.length < 13) :
    batches.length / 13 = 0 ∧
    train_epoch P B eval_batch step_params params batches = none := by
  have hd : batches.length / 13 = 0 := Nat.div_eq_of_lt h13
  refine ⟨hd, ?_⟩
  obtain ⟨b, rest, rfl⟩ : ∃ b rest, batches = b :: rest := by
    cases batches with
    | nil => simp at h1
    | cons b r => exact ⟨b, r, rfl⟩
  have hd' : (rest.length + 1) / 13 = 0 := by simpa using hd
  unfold train_epoch
  simp [hd', List.enum, List.enumFrom, List.foldlM_cons, train_step, pymod]

theorem C10_short_epoch_crash_witness :
    (1 ≤ ([()] : List Unit).length) ∧ (([()] : List Unit).length < 13) ∧
    (([()] : List Unit).length / 13 = 0 ∧
      train_epoch Unit Unit (fun _ _ => ⟨0, 0, 0, 1⟩) (fun p _ => p) () [()]
        = none) :=
  ⟨by decide, by decide,
    C10_short_epoch_crash Unit Unit (fun _ _ => ⟨0, 0, 0, 1⟩) (fun p _ => p) ()
      [()] (by decide) (by decide)⟩

end Cifar
